import Mathlib

/-!
Shallow embedding of the EFFI-TRACK admin dashboard (TypeScript/React +
Supabase edge functions) for verification of its specification.

Time is modelled as integer milliseconds since the epoch (JS `Date.getTime()`
values are integral millisecond counts; all arithmetic performed by the code
on them stays well inside the double-exact range, so `Int` is faithful).
Database reads are modelled the way the supabase-js client reports them: a
result carries either data or an error, and the pages read only the parts
they actually destructure.  Nullable columns are `Option`, fallible
operations are `Except`/`Option`, and the UI toast system is modelled as an
explicit `Option String`/`Bool` output.
-/

/-- Milliseconds in one day, as in `1000 * 60 * 60 * 24` in the notifier. -/
def dayMs : Int := 1000 * 60 * 60 * 24

/-- `Math.ceil(a / b)` for integer `a` and positive integer `b`: the exact
rational ceiling, which the double-precision computation in the notifier
agrees with for millisecond-integral inputs. -/
def ceilDiv (a b : Int) : Int := -((-a) / b)

/-- `daysLeft = Math.ceil((deadline - now) / (1000*60*60*24))` from the
deadline-alert function (both the project and the task branch). -/
def daysLeft (deadline now : Int) : Int := ceilDiv (deadline - now) dayMs

/-- The plural suffix `daysLeft !== 1 ? 's' : ''` of the email template. -/
def dayWordSuffix (n : Int) : String := if n ≠ 1 then "s" else ""

/-- The `Days Remaining` fragment of the email body:
`${daysLeft} day${daysLeft !== 1 ? 's' : ''}`. -/
def daysRemainingText (n : Int) : String := toString n ++ " day" ++ dayWordSuffix n

/-- A project row as used by the deadline-alert selection: the notifier reads
`status` and `end_date` (nullable) of each project. -/
structure Project where
  id : String
  title : String
  status : String
  end_date : Option Int
deriving DecidableEq

/-- The window test of the notifier's project query:
`.lte("end_date", threeDaysFromNow).gte("end_date", now)`; a SQL comparison
against a NULL `end_date` is never satisfied. -/
def upcomingWindow (now : Int) (d : Option Int) : Bool :=
  match d with
  | some t => decide (now ≤ t) && decide (t ≤ now + 3 * dayMs)
  | none => false

/-- The notifier's project selection:
`.eq("status", "ongoing")` plus the three-day deadline window. -/
def selectUpcomingProjects (now : Int) (projects : List Project) : List Project :=
  projects.filter fun p => p.status == "ongoing" && upcomingWindow now p.end_date

/-- One (recipient, item) message of the notifier batch. -/
structure EmailMessage where
  «to» : String
  subject : String
  html : String
deriving DecidableEq

/-- The notifier's dispatch loop: for each message it calls `sendEmail`
inside `try { ...; emailsSent.push(...) } catch (emailError) { log }`.
`transport m = true` means the send resolves, `false` that it throws.
Returns (emailsSent, the messages for which a send was attempted). -/
def dispatchEmails (transport : EmailMessage → Bool) :
    List EmailMessage → List String × List EmailMessage
  | [] => ([], [])
  | m :: rest =>
    let r := dispatchEmails transport rest
    if transport m then (m.«to» :: r.1, m :: r.2) else (r.1, m :: r.2)

/-- The success payload of the notifier (`status: 200` response body). -/
structure AlertSummary where
  success : Bool
  message : String
  emailsSent : List String
  projectsChecked : Nat
  tasksChecked : Nat
deriving DecidableEq

/-- The summary the notifier returns after the dispatch loops:
`Sent ${emailsSent.length} deadline alert emails`. -/
def alertSummary (sent : List String) (projectsChecked tasksChecked : Nat) : AlertSummary :=
  { success := true
    message := "Sent " ++ toString sent.length ++ " deadline alert emails"
    emailsSent := sent
    projectsChecked := projectsChecked
    tasksChecked := tasksChecked }

/-- An employee row of the Employees page (all columns it reads/writes). -/
structure EmployeeRow where
  id : String
  name : String
  email : String
  department : String
  status : String
deriving DecidableEq

/-- The new status computed by `toggleEmployeeStatus`:
`employee.status === "active" ? "inactive" : "active"`. -/
def toggledStatus (status : String) : String :=
  if status == "active" then "inactive" else "active"

/-- Effect on the employees table of `toggleEmployeeStatus(employee)`:
`.update({ status: newStatus }).eq("id", employee.id)` — the update payload
contains only the status column. -/
def toggleEmployeeStatus (db : List EmployeeRow) (employee : EmployeeRow) : List EmployeeRow :=
  db.map fun e =>
    if e.id == employee.id then { e with status := toggledStatus employee.status } else e

/-- The dashboard stats record of `Dashboard.tsx`. -/
structure DashboardStats where
  totalEmployees : Nat
  activeEmployees : Nat
  totalProjects : Nat
  ongoingProjects : Nat
  totalTasks : Nat
  completedTasks : Nat
  totalRewardPoints : Int
deriving DecidableEq

/-- `fetchStats` of `Dashboard.tsx`.  Each argument is one of the four reads,
given as the `data` field supabase-js returns (`none` models a read whose
`error` is set and whose `data` is null; the page never destructures
`error`).  The `Bool` output records whether any user-visible notification
was produced: the page has no toast and only `console.error`s inside a catch
that a failed read does not even reach, so it is constantly `false`. -/
def fetchStats (employees : Option (List String)) (projects : Option (List String))
    (tasks : Option (List String)) (rewards : Option (List Int)) : DashboardStats × Bool :=
  ({ totalEmployees := match employees with | some es => es.length | none => 0
     activeEmployees := match employees with | some es => (es.filter (· == "active")).length | none => 0
     totalProjects := match projects with | some ps => ps.length | none => 0
     ongoingProjects := match projects with | some ps => (ps.filter (· == "ongoing")).length | none => 0
     totalTasks := match tasks with | some ts => ts.length | none => 0
     completedTasks := match tasks with | some ts => (ts.filter (· == "completed")).length | none => 0
     totalRewardPoints := match rewards with | some rs => rs.foldl (· + ·) 0 | none => 0 },
   false)

/-- A full project row as stored by the Projects page form. -/
structure ProjectRow where
  id : String
  title : String
  description : String
  status : String
  start_date : String
  end_date : String
deriving DecidableEq

/-- One `project_assignments` row. -/
structure ProjectAssignment where
  project_id : String
  employee_id : String
deriving DecidableEq

/-- The projects-page database state the Assignment Manager mutates. -/
structure ProjectsDB where
  projects : List ProjectRow
  assignments : List ProjectAssignment
deriving DecidableEq

/-- Observable outcome of `handleSubmit` in the Projects page: the database
state afterwards, the destructive toast (if any), and whether the dialog is
still open (it is closed only on the fully successful path). -/
structure SubmitOutcome where
  db : ProjectsDB
  errorToast : Option String
  dialogOpen : Bool
deriving DecidableEq

/-- `handleSubmit` of the Projects page (`createProject`): insert the project
row; on success, if employees are selected, insert one assignment row per
selected employee; a failure of either insert is thrown to the single catch,
which shows an error toast and leaves the dialog open.  The project insert's
effect persists even when the later assignment insert fails (no rollback).
`insertProject` / `insertAssignments` are the store's responses. -/
def handleSubmit (st : ProjectsDB) (selectedEmployees : List String)
    (insertProject : Except String ProjectRow)
    (insertAssignments : List ProjectAssignment → Except String Unit) : SubmitOutcome :=
  match insertProject with
  | .error e => { db := st, errorToast := some e, dialogOpen := true }
  | .ok newProject =>
    if selectedEmployees.length > 0 then
      let rows := selectedEmployees.map fun employeeId =>
        { project_id := newProject.id, employee_id := employeeId : ProjectAssignment }
      match insertAssignments rows with
      | .error e =>
        { db := { projects := st.projects ++ [newProject], assignments := st.assignments }
          errorToast := some e
          dialogOpen := true }
      | .ok _ =>
        { db := { projects := st.projects ++ [newProject], assignments := st.assignments ++ rows }
          errorToast := none
          dialogOpen := false }
    else
      { db := { projects := st.projects ++ [newProject], assignments := st.assignments }
        errorToast := none
        dialogOpen := false }

/-- Effect on the `project_assignments` table of `handleAssignEmployees`
(spec name `setProjectAssignees`): delete every row of the selected project,
then insert one row per selected employee (skipped when the list is empty,
which inserts nothing either way). -/
def setProjectAssignees (db : List ProjectAssignment) (projectId : String)
    (employeeIds : List String) : List ProjectAssignment :=
  (db.filter fun a => !(a.project_id == projectId)) ++
    employeeIds.map fun employeeId =>
      { project_id := projectId, employee_id := employeeId : ProjectAssignment }

/-- The `{id, name, email}` selection of an employee used by the Projects
page. -/
structure EmployeeInfo where
  id : String
  name : String
  email : String
deriving DecidableEq

/-- A project together with its resolved assignees, as built by
`fetchProjects`; the `assignedEmployees` field is total (a list, never
null/absent). -/
structure ProjectCard where
  project : ProjectRow
  assignedEmployees : List EmployeeInfo
deriving DecidableEq

/-- The per-project body of `fetchProjects`: query the assignment rows of the
project (only `data` is destructured, so `none` models an errored sub-query);
if some rows exist, batch-fetch the referenced employees (again only `data`,
with `employeesData || []`); otherwise `assignedEmployees: []`. -/
def buildProjectCard (assignQuery : String → Option (List ProjectAssignment))
    (empQuery : List String → Option (List EmployeeInfo)) (project : ProjectRow) : ProjectCard :=
  match assignQuery project.id with
  | some assignments =>
    if assignments.length > 0 then
      { project := project
        assignedEmployees := (empQuery (assignments.map (·.employee_id))).getD [] }
    else { project := project, assignedEmployees := [] }
  | none => { project := project, assignedEmployees := [] }

/-- `fetchProjects` of the Projects page (spec name
`listProjectsWithAssignees`): an error on the top-level projects read shows a
toast and aborts (`Except.error`); otherwise each project row is mapped to a
card. -/
def fetchProjects (projectsResult : Except String (List ProjectRow))
    (assignQuery : String → Option (List ProjectAssignment))
    (empQuery : List String → Option (List EmployeeInfo)) :
    Except String (List ProjectCard) :=
  match projectsResult with
  | .error e => .error e
  | .ok projectsData => .ok (projectsData.map (buildProjectCard assignQuery empQuery))

/-- The assignment sub-query answered honestly from a concrete
`project_assignments` table: `.select("employee_id").eq("project_id", id)`. -/
def storeAssignQuery (db : List ProjectAssignment) : String → Option (List ProjectAssignment) :=
  fun projectId => some (db.filter fun a => a.project_id == projectId)

/-- An `{id, name}` employee selection, as read by the Rewards page. -/
structure EmployeeIdName where
  id : String
  name : String
deriving DecidableEq

/-- One `reward_points` row (the columns the Rewards page reads). -/
structure RewardRow where
  employee_id : String
  points : Int
deriving DecidableEq

/-- One `tasks` row as read by the Rewards page (`assigned_to` nullable). -/
structure TaskRow where
  assigned_to : Option String
  status : String
deriving DecidableEq

/-- One leaderboard entry of the Rewards page. -/
structure LeaderRow where
  id : String
  name : String
  totalPoints : Int
  completedTasks : Nat
deriving DecidableEq

/-- `points?.reduce((sum, p) => sum + p.points, 0) || 0` over the rows of one
employee (`.eq("employee_id", emp.id)`). -/
def totalPointsFor (rewards : List RewardRow) (employeeId : String) : Int :=
  ((rewards.filter fun r => r.employee_id == employeeId).map (·.points)).foldl (· + ·) 0

/-- `tasks?.length || 0` for `.eq("assigned_to", emp.id).eq("status",
"completed")`. -/
def completedTasksFor (tasks : List TaskRow) (employeeId : String) : Nat :=
  (tasks.filter fun t => t.assigned_to == some employeeId && t.status == "completed").length

/-- The pre-sort leaderboard row built for one employee. -/
def leaderRowFor (rewards : List RewardRow) (tasks : List TaskRow)
    (e : EmployeeIdName) : LeaderRow :=
  { id := e.id
    name := e.name
    totalPoints := totalPointsFor rewards e.id
    completedTasks := completedTasksFor tasks e.id }

/-- Stable descending insertion: place `x` before the first element whose
total is not greater than `x`'s, so earlier input rows precede later ones on
ties.  A stable sort's output is determined by the comparator plus stability,
so this computes exactly what ECMAScript's (stability-mandated) `sort` with
`(a, b) => b.totalPoints - a.totalPoints` produces. -/
def insertRowDesc (x : LeaderRow) : List LeaderRow → List LeaderRow
  | [] => [x]
  | y :: ys =>
    if x.totalPoints < y.totalPoints then y :: insertRowDesc x ys else x :: y :: ys

/-- Stable sort of leaderboard rows, descending by `totalPoints`. -/
def sortByPointsDesc : List LeaderRow → List LeaderRow
  | [] => []
  | x :: xs => insertRowDesc x (sortByPointsDesc xs)

/-- `fetchEmployeePoints` of the Rewards page (spec name
`computeLeaderboard`): one row per employee with summed points and completed
task count, then `employeeData.sort((a, b) => b.totalPoints -
a.totalPoints)`. -/
def fetchEmployeePoints (employees : List EmployeeIdName) (rewards : List RewardRow)
    (tasks : List TaskRow) : List LeaderRow :=
  sortByPointsDesc (employees.map (leaderRowFor rewards tasks))

/-- Demo transport for the batch-dispatch witness: the send to `bob@x`
throws, every other send resolves. -/
def demoTransport : EmailMessage → Bool := fun m => !(m.«to» == "bob@x")

/-- Demo batch of three recipients. -/
def demoMessages : List EmailMessage :=
  [{ «to» := "alice@x", subject := "s1", html := "h1" },
   { «to» := "bob@x", subject := "s2", html := "h2" },
   { «to» := "carol@x", subject := "s3", html := "h3" }]

/-- Demo prior assignment table for the replace-all witness. -/
def demoAssignments : List ProjectAssignment :=
  [{ project_id := "p1", employee_id := "e1" },
   { project_id := "p1", employee_id := "e2" },
   { project_id := "p2", employee_id := "e2" }]

/-- Demo project row for the Projects-page witnesses. -/
def demoProjectRow : ProjectRow :=
  { id := "p1", title := "T", description := "d", status := "ongoing",
    start_date := "s", end_date := "e" }

/-- Demo projects for the deadline-selection witness (`now = 0`). -/
def demoProjects : List Project :=
  [{ id := "p1", title := "Launch", status := "ongoing", end_date := some 172800000 },
   { id := "p2", title := "Later", status := "ongoing", end_date := some 345600000 },
   { id := "p3", title := "Done", status := "completed", end_date := some 172800000 }]

/-! ## Theorems -/

lemma dayMs_pos : (0 : Int) < dayMs := by decide

lemma ceilDiv_le_iff (a b : Int) (hb : 0 < b) (k : Int) :
    ceilDiv a b ≤ k ↔ a ≤ k * b := by
  unfold ceilDiv
  rw [neg_le, Int.le_ediv_iff_mul_le hb]
  constructor <;> intro h <;> nlinarith

lemma daysLeft_le_iff (deadline now k : Int) :
    daysLeft deadline now ≤ k ↔ deadline - now ≤ k * dayMs :=
  ceilDiv_le_iff (deadline - now) dayMs dayMs_pos k

/-- C3: `daysLeft` is the ceiling of `(deadline - now) / 1 day` (characterised
by its Galois property), an item due in exactly 3 days yields `daysLeft = 3`
with wording `3 days`, an item due in strictly less than 24 hours (but still
upcoming) yields `daysLeft = 1` with wording `1 day`, and the singular form is
used exactly when `daysLeft = 1`. -/
theorem daysLeft_correct (deadline now : Int) :
    (∀ k : Int, daysLeft deadline now ≤ k ↔ deadline - now ≤ k * dayMs)
    ∧ (deadline - now = 3 * dayMs →
        daysLeft deadline now = 3 ∧ daysRemainingText (daysLeft deadline now) = "3 days")
    ∧ (0 < deadline - now → deadline - now < dayMs →
        daysLeft deadline now = 1 ∧ daysRemainingText (daysLeft deadline now) = "1 day")
    ∧ (∀ n : Int, dayWordSuffix n = "" ↔ n = 1) := by
  have key := daysLeft_le_iff deadline now
  have hpos := dayMs_pos
  refine ⟨key, ?_, ?_, ?_⟩
  · intro h3
    have h1 : daysLeft deadline now ≤ 3 := (key 3).2 (by nlinarith)
    have h2 : ¬ daysLeft deadline now ≤ 2 := by
      intro hle
      have := (key 2).1 hle
      nlinarith
    have hval : daysLeft deadline now = 3 := by omega
    exact ⟨hval, by rw [hval]; decide⟩
  · intro hlow hhigh
    have h1 : daysLeft deadline now ≤ 1 := (key 1).2 (by nlinarith)
    have h2 : ¬ daysLeft deadline now ≤ 0 := by
      intro hle
      have := (key 0).1 hle
      nlinarith
    have hval : daysLeft deadline now = 1 := by omega
    exact ⟨hval, by rw [hval]; decide⟩
  · intro n
    by_cases h : n = 1
    · subst h
      constructor
      · intro _; rfl
      · intro _; decide
    · have hs : dayWordSuffix n = "s" := by simp [dayWordSuffix, h]
      rw [hs]
      constructor
      · intro habs; exact absurd habs (by decide)
      · intro h1; exact absurd h1 h

/-- Witness for C3 at concrete instants: `now = 0`, deadlines at exactly three
days and at one millisecond under a day. -/
theorem daysLeft_correct_witness :
    (daysLeft (3 * dayMs) 0 = 3 ∧ daysRemainingText (daysLeft (3 * dayMs) 0) = "3 days")
    ∧ (daysLeft (dayMs - 1) 0 = 1 ∧ daysRemainingText (daysLeft (dayMs - 1) 0) = "1 day") := by
  have h3 := (daysLeft_correct (3 * dayMs) 0).2.1 (by omega)
  have h1 := (daysLeft_correct (dayMs - 1) 0).2.2.1 (by decide) (by decide)
  exact ⟨h3, h1⟩

lemma upcomingWindow_iff (now : Int) (d : Option Int) :
    upcomingWindow now d = true ↔ ∃ t, d = some t ∧ now ≤ t ∧ t ≤ now + 3 * dayMs := by
  cases d <;> simp [upcomingWindow]

/-- C2: a project is selected by the notifier iff its status is `ongoing` and
its `end_date` is non-null and lies in the closed window `[now, now + 3
days]`; in particular an ongoing project due in 2 days is selected, one due in
4 days is not, and a completed one never is. -/
theorem selectUpcomingProjects_correct (now : Int) (ps : List Project) (p : Project) :
    (p ∈ selectUpcomingProjects now ps ↔
      p ∈ ps ∧ p.status = "ongoing" ∧ ∃ t, p.end_date = some t ∧ now ≤ t ∧ t ≤ now + 3 * dayMs)
    ∧ (p ∈ ps → p.status = "ongoing" → p.end_date = some (now + 2 * dayMs) →
        p ∈ selectUpcomingProjects now ps)
    ∧ (p.end_date = some (now + 4 * dayMs) → p ∉ selectUpcomingProjects now ps)
    ∧ (p.status = "completed" → p ∉ selectUpcomingProjects now ps) := by
  have hpos := dayMs_pos
  have main : p ∈ selectUpcomingProjects now ps ↔
      p ∈ ps ∧ p.status = "ongoing" ∧
        ∃ t, p.end_date = some t ∧ now ≤ t ∧ t ≤ now + 3 * dayMs := by
    simp [selectUpcomingProjects, List.mem_filter, upcomingWindow_iff, and_assoc]
  refine ⟨main, ?_, ?_, ?_⟩
  · intro hmem hst hd
    exact main.2 ⟨hmem, hst, now + 2 * dayMs, hd, by nlinarith, by nlinarith⟩
  · intro hd hsel
    rcases (main.1 hsel).2.2 with ⟨t, ht, h1, h2⟩
    rw [hd] at ht
    have : t = now + 4 * dayMs := by injection ht with h; omega
    nlinarith
  · intro hst hsel
    have := (main.1 hsel).2.1
    rw [hst] at this
    exact absurd this (by decide)

/-- Witness for C2: at `now = 0`, the ongoing project due in 2 days is
selected while the one due in 4 days and the completed one are not. -/
theorem selectUpcomingProjects_correct_witness :
    demoProjects.get ⟨0, by decide⟩ ∈ selectUpcomingProjects 0 demoProjects
    ∧ demoProjects.get ⟨1, by decide⟩ ∉ selectUpcomingProjects 0 demoProjects
    ∧ demoProjects.get ⟨2, by decide⟩ ∉ selectUpcomingProjects 0 demoProjects := by
  refine ⟨?_, ?_, ?_⟩
  · exact (selectUpcomingProjects_correct 0 demoProjects _).2.1 (by decide) (by decide) (by decide)
  · exact (selectUpcomingProjects_correct 0 demoProjects _).2.2.1 (by decide)
  · exact (selectUpcomingProjects_correct 0 demoProjects _).2.2.2 (by decide)

lemma dispatchEmails_sent (t : EmailMessage → Bool) (msgs : List EmailMessage) :
    (dispatchEmails t msgs).1 = (msgs.filter t).map (·.«to») := by
  induction msgs with
  | nil => rfl
  | cons m rest ih =>
    by_cases h : t m = true <;> simp [dispatchEmails, List.filter_cons, h, ih]

lemma dispatchEmails_attempted (t : EmailMessage → Bool) (msgs : List EmailMessage) :
    (dispatchEmails t msgs).2 = msgs := by
  induction msgs with
  | nil => rfl
  | cons m rest ih =>
    by_cases h : t m = true <;> simp [dispatchEmails, h, ih]

/-- C1: in the notifier's dispatch loop a transport failure for one message
is absorbed by the per-message catch: the send for every message of the batch
is still attempted, `emailsSent` is exactly the recipients of the successful
sends (in order), an address all of whose sends fail is absent from
`emailsSent`, and the loop returns a normal success summary counting exactly
the successful sends — no exception reaches the caller. -/
theorem dispatch_isolated_failure (t : EmailMessage → Bool) (msgs : List EmailMessage)
    (m : EmailMessage) (hm : m ∈ msgs)
    (hfail : ∀ m2 ∈ msgs, m2.«to» = m.«to» → t m2 = false) :
    t m = false
    ∧ (dispatchEmails t msgs).2 = msgs
    ∧ (dispatchEmails t msgs).1 = (msgs.filter t).map (·.«to»)
    ∧ m.«to» ∉ (dispatchEmails t msgs).1
    ∧ (∀ projectsChecked tasksChecked : Nat,
        (alertSummary (dispatchEmails t msgs).1 projectsChecked tasksChecked).success = true
        ∧ (alertSummary (dispatchEmails t msgs).1 projectsChecked
            tasksChecked).emailsSent.length = (msgs.filter t).length) := by
  have hsent := dispatchEmails_sent t msgs
  refine ⟨hfail m hm rfl, dispatchEmails_attempted t msgs, hsent, ?_, ?_⟩
  · rw [hsent]
    intro habs
    rcases List.mem_map.1 habs with ⟨m2, hm2, hto⟩
    rcases List.mem_filter.1 hm2 with ⟨hm2mem, hm2t⟩
    have := hfail m2 hm2mem hto
    rw [this] at hm2t
    exact Bool.false_ne_true hm2t
  · intro projectsChecked tasksChecked
    refine ⟨rfl, ?_⟩
    show (dispatchEmails t msgs).1.length = (msgs.filter t).length
    rw [hsent, List.length_map]

/-- Witness for C1: three recipients, the transport throws exactly for
`bob@x`; two emails are reported sent, `bob@x` is absent, and all three sends
were attempted. -/
theorem dispatch_isolated_failure_witness :
    (dispatchEmails demoTransport demoMessages).1.length = 2
    ∧ "bob@x" ∉ (dispatchEmails demoTransport demoMessages).1
    ∧ (dispatchEmails demoTransport demoMessages).2 = demoMessages
    ∧ (alertSummary (dispatchEmails demoTransport demoMessages).1 3 0).message
        = "Sent 2 deadline alert emails" := by
  have h := dispatch_isolated_failure demoTransport demoMessages
    { «to» := "bob@x", subject := "s2", html := "h2" } (by decide) (by decide)
  exact ⟨by decide, h.2.2.2.1, h.2.1, by decide⟩

lemma toggledStatus_twice (s : String) (h : s = "active" ∨ s = "inactive") :
    toggledStatus (toggledStatus s) = s := by
  rcases h with h | h <;> subst h <;> decide

/-- C9: toggling an employee's status updates only the `status` column — the
id, name, email and department columns of every row are untouched — it flips
`active` to `inactive` and back, and (when the page's copy of the row agrees
with the table and the status is one of the two legal values) toggling twice
restores the table exactly. -/
theorem toggleEmployeeStatus_correct (db : List EmployeeRow) (employee : EmployeeRow) :
    (toggleEmployeeStatus db employee).map (·.id) = db.map (·.id)
    ∧ (toggleEmployeeStatus db employee).map (·.name) = db.map (·.name)
    ∧ (toggleEmployeeStatus db employee).map (·.email) = db.map (·.email)
    ∧ (toggleEmployeeStatus db employee).map (·.department) = db.map (·.department)
    ∧ toggledStatus "active" = "inactive"
    ∧ toggledStatus "inactive" = "active"
    ∧ ((employee.status = "active" ∨ employee.status = "inactive") →
        (∀ e ∈ db, e.id = employee.id → e.status = employee.status) →
        toggleEmployeeStatus (toggleEmployeeStatus db employee)
          { employee with status := toggledStatus employee.status } = db) := by
  refine ⟨?_, ?_, ?_, ?_, rfl, rfl, ?_⟩
  · simp only [toggleEmployeeStatus, List.map_map]
    apply List.map_congr_left
    intro e _
    dsimp only [Function.comp]
    split <;> rfl
  · simp only [toggleEmployeeStatus, List.map_map]
    apply List.map_congr_left
    intro e _
    dsimp only [Function.comp]
    split <;> rfl
  · simp only [toggleEmployeeStatus, List.map_map]
    apply List.map_congr_left
    intro e _
    dsimp only [Function.comp]
    split <;> rfl
  · simp only [toggleEmployeeStatus, List.map_map]
    apply List.map_congr_left
    intro e _
    dsimp only [Function.comp]
    split <;> rfl
  · intro hlegal hsync
    simp only [toggleEmployeeStatus, List.map_map]
    have step : ∀ e ∈ db,
        ((fun x : EmployeeRow =>
            if x.id == ({ employee with status := toggledStatus employee.status } :
                EmployeeRow).id then
              { x with status :=
                  toggledStatus ({ employee with status := toggledStatus employee.status } :
                    EmployeeRow).status }
            else x) ∘
          fun x : EmployeeRow =>
            if x.id == employee.id then
              { x with status := toggledStatus employee.status } else x) e = e := by
      intro e hmem
      dsimp only [Function.comp]
      by_cases h : (e.id == employee.id) = true
      · have hid : e.id = employee.id := by simpa using h
        have hst : e.status = employee.status := hsync e hmem hid
        rw [if_pos h, if_pos h, toggledStatus_twice employee.status hlegal, ← hst]
      · rw [if_neg h, if_neg h]
    calc db.map _ = db.map id := List.map_congr_left step
    _ = db := List.map_id db

/-- Witness for C9: a one-row table with an active employee; the double
toggle restores it and a single toggle changes no other column. -/
theorem toggleEmployeeStatus_correct_witness :
    (toggleEmployeeStatus
        [{ id := "e1", name := "A", email := "a@x", department := "D", status := "active" }]
        { id := "e1", name := "A", email := "a@x", department := "D", status := "active" }).map
        (·.name) = ["A"]
    ∧ toggleEmployeeStatus
        (toggleEmployeeStatus
          [{ id := "e1", name := "A", email := "a@x", department := "D", status := "active" }]
          { id := "e1", name := "A", email := "a@x", department := "D", status := "active" })
        { id := "e1", name := "A", email := "a@x", department := "D",
          status := toggledStatus "active" } =
      [{ id := "e1", name := "A", email := "a@x", department := "D", status := "active" }] := by
  have h := toggleEmployeeStatus_correct
    [{ id := "e1", name := "A", email := "a@x", department := "D", status := "active" }]
    { id := "e1", name := "A", email := "a@x", department := "D", status := "active" }
  exact ⟨h.2.1, h.2.2.2.2.2.2 (Or.inl rfl) (by decide)⟩

/-- C6 counterexample: with the employees read failing (data null) and the
projects read returning one ongoing project, `fetchStats` shows no
notification at all and the project stats are populated rather than zero —
the claim's "reported error via a visible notification" and "every stat field
defaults to zero" are both false on the code. -/
theorem fetchStats_claim_false :
    ¬ ((fetchStats none (some ["ongoing"]) (some []) (some [])).2 = true)
    ∧ ¬ ((fetchStats none (some ["ongoing"]) (some []) (some [])).1.totalProjects = 0) := by
  decide

/-- C6 amended: `fetchStats` never produces any user-visible notification; a
failed read silently contributes zeros for exactly the stat fields derived
from it, while the fields derived from each successful read are still
populated from its rows (so a single failed read yields partially populated
stats, not all-zero stats, and never a crash). -/
theorem fetchStats_degrades (employees projects tasks : Option (List String))
    (rewards : Option (List Int)) :
    (fetchStats employees projects tasks rewards).2 = false
    ∧ (employees = none →
        (fetchStats employees projects tasks rewards).1.totalEmployees = 0
        ∧ (fetchStats employees projects tasks rewards).1.activeEmployees = 0)
    ∧ (projects = none →
        (fetchStats employees projects tasks rewards).1.totalProjects = 0
        ∧ (fetchStats employees projects tasks rewards).1.ongoingProjects = 0)
    ∧ (tasks = none →
        (fetchStats employees projects tasks rewards).1.totalTasks = 0
        ∧ (fetchStats employees projects tasks rewards).1.completedTasks = 0)
    ∧ (rewards = none →
        (fetchStats employees projects tasks rewards).1.totalRewardPoints = 0)
    ∧ (∀ ps, projects = some ps →
        (fetchStats employees projects tasks rewards).1.totalProjects = ps.length
        ∧ (fetchStats employees projects tasks rewards).1.ongoingProjects
            = (ps.filter (· == "ongoing")).length)
    ∧ (∀ es, employees = some es →
        (fetchStats employees projects tasks rewards).1.totalEmployees = es.length) := by
  refine ⟨rfl, ?_, ?_, ?_, ?_, ?_, ?_⟩
  · intro h; subst h; exact ⟨rfl, rfl⟩
  · intro h; subst h; exact ⟨rfl, rfl⟩
  · intro h; subst h; exact ⟨rfl, rfl⟩
  · intro h; subst h; rfl
  · intro ps h; subst h; exact ⟨rfl, rfl⟩
  · intro es h; subst h; rfl

/-- Witness for amended C6: the employees read fails, the others succeed. -/
theorem fetchStats_degrades_witness :
    (fetchStats none (some ["ongoing"]) (some ["completed"]) (some [5])).2 = false
    ∧ (fetchStats none (some ["ongoing"]) (some ["completed"]) (some [5])).1.totalEmployees = 0
    ∧ (fetchStats none (some ["ongoing"]) (some ["completed"]) (some [5])).1.totalProjects = 1 := by
  have h := fetchStats_degrades none (some ["ongoing"]) (some ["completed"]) (some [5])
  exact ⟨h.1, (h.2.1 rfl).1, (h.2.2.2.2.2.1 ["ongoing"] rfl).1⟩

/-- C7: when the project insert succeeds but the assignment insert fails, the
project row persists in the table with no assignment rows for it (no
rollback), the failure is surfaced as an error toast with the dialog left
open, and the state is distinct from the total-failure case, where the
project table is unchanged. -/
theorem handleSubmit_partial_failure (st : ProjectsDB) (selectedEmployees : List String)
    (newProject : ProjectRow) (insertAssignments : List ProjectAssignment → Except String Unit)
    (e : String) (hsel : selectedEmployees.length > 0)
    (hfail : insertAssignments (selectedEmployees.map fun employeeId =>
        { project_id := newProject.id, employee_id := employeeId : ProjectAssignment })
      = .error e) :
    (handleSubmit st selectedEmployees (.ok newProject) insertAssignments).db.projects
        = st.projects ++ [newProject]
    ∧ (handleSubmit st selectedEmployees (.ok newProject) insertAssignments).db.assignments
        = st.assignments
    ∧ (newProject.id ∉ st.assignments.map (·.project_id) →
        ((handleSubmit st selectedEmployees (.ok newProject)
            insertAssignments).db.assignments.filter
          (fun a => a.project_id == newProject.id)) = [])
    ∧ (handleSubmit st selectedEmployees (.ok newProject) insertAssignments).errorToast = some e
    ∧ (handleSubmit st selectedEmployees (.ok newProject) insertAssignments).dialogOpen = true
    ∧ (∀ e2, (handleSubmit st selectedEmployees (.error e2) insertAssignments).db = st
        ∧ (handleSubmit st selectedEmployees (.error e2)
            insertAssignments).errorToast = some e2) := by
  have hout : handleSubmit st selectedEmployees (.ok newProject) insertAssignments =
      { db := { projects := st.projects ++ [newProject], assignments := st.assignments }
        errorToast := some e
        dialogOpen := true } := by
    simp only [handleSubmit, if_pos hsel, hfail]
  refine ⟨by rw [hout], by rw [hout], ?_, by rw [hout], by rw [hout], fun e2 => ⟨rfl, rfl⟩⟩
  intro hfresh
  rw [hout]
  rw [List.filter_eq_nil_iff]
  intro a ha hp
  exact hfresh (List.mem_map.2 ⟨a, ha, ((beq_iff_eq).1 hp).symm ▸ rfl⟩)

/-- Witness for C7: empty prior state, one selected employee, assignment
insert fails; the project persists unassigned, the error toast shows, and the
total-failure contrast leaves the table empty. -/
theorem handleSubmit_partial_failure_witness :
    (handleSubmit { projects := [], assignments := [] } ["e1"]
        (.ok { id := "p1", title := "T", description := "d", status := "ongoing",
               start_date := "2025-01-01", end_date := "2025-02-01" })
        (fun _ => .error "insert failed")).db.projects
      = [{ id := "p1", title := "T", description := "d", status := "ongoing",
           start_date := "2025-01-01", end_date := "2025-02-01" }]
    ∧ (handleSubmit { projects := [], assignments := [] } ["e1"]
        (.ok { id := "p1", title := "T", description := "d", status := "ongoing",
               start_date := "2025-01-01", end_date := "2025-02-01" })
        (fun _ => .error "insert failed")).db.assignments.filter
          (fun a => a.project_id == "p1") = []
    ∧ (handleSubmit { projects := [], assignments := [] } ["e1"]
        (.ok { id := "p1", title := "T", description := "d", status := "ongoing",
               start_date := "2025-01-01", end_date := "2025-02-01" })
        (fun _ => .error "insert failed")).errorToast = some "insert failed" := by
  have h := handleSubmit_partial_failure { projects := [], assignments := [] } ["e1"]
    { id := "p1", title := "T", description := "d", status := "ongoing",
      start_date := "2025-01-01", end_date := "2025-02-01" }
    (fun _ => .error "insert failed") "insert failed" (by decide) rfl
  exact ⟨by rw [h.1]; rfl, h.2.2.1 (by decide), h.2.2.2.1⟩

lemma buildProjectCard_of_error (assignQuery : String → Option (List ProjectAssignment))
    (empQuery : List String → Option (List EmployeeInfo)) (pr : ProjectRow)
    (h : assignQuery pr.id = none) :
    buildProjectCard assignQuery empQuery pr = { project := pr, assignedEmployees := [] } := by
  simp [buildProjectCard, h]

lemma buildProjectCard_of_empty (assignQuery : String → Option (List ProjectAssignment))
    (empQuery : List String → Option (List EmployeeInfo)) (pr : ProjectRow)
    (h : assignQuery pr.id = some []) :
    buildProjectCard assignQuery empQuery pr = { project := pr, assignedEmployees := [] } := by
  simp [buildProjectCard, h]

lemma setProjectAssignees_rows (db : List ProjectAssignment) (projectId : String)
    (employeeIds : List String) :
    (setProjectAssignees db projectId employeeIds).filter (fun a => a.project_id == projectId)
      = employeeIds.map fun employeeId =>
          { project_id := projectId, employee_id := employeeId : ProjectAssignment } := by
  unfold setProjectAssignees
  rw [List.filter_append]
  have h1 : (db.filter fun a => !(a.project_id == projectId)).filter
      (fun a => a.project_id == projectId) = [] := by
    rw [List.filter_eq_nil_iff]
    intro a ha hp
    have := (List.mem_filter.1 ha).2
    rw [hp] at this
    exact Bool.false_ne_true this
  have h2 : (employeeIds.map fun employeeId =>
      { project_id := projectId, employee_id := employeeId : ProjectAssignment }).filter
      (fun a => a.project_id == projectId) =
      employeeIds.map fun employeeId =>
        { project_id := projectId, employee_id := employeeId : ProjectAssignment } := by
    rw [List.filter_eq_self]
    intro a ha
    rcases List.mem_map.1 ha with ⟨eid, _, hEq⟩
    rw [← hEq]
    exact beq_self_eq_true projectId
  rw [h1, h2, List.nil_append]

lemma setProjectAssignees_frame (db : List ProjectAssignment) (projectId : String)
    (employeeIds : List String) :
    (setProjectAssignees db projectId employeeIds).filter (fun a => !(a.project_id == projectId))
      = db.filter (fun a => !(a.project_id == projectId)) := by
  unfold setProjectAssignees
  rw [List.filter_append]
  have h1 : (db.filter fun a => !(a.project_id == projectId)).filter
      (fun a => !(a.project_id == projectId)) = db.filter fun a => !(a.project_id == projectId) := by
    rw [List.filter_eq_self]
    intro a ha
    exact (List.mem_filter.1 ha).2
  have h2 : (employeeIds.map fun employeeId =>
      { project_id := projectId, employee_id := employeeId : ProjectAssignment }).filter
      (fun a => !(a.project_id == projectId)) = [] := by
    rw [List.filter_eq_nil_iff]
    intro a ha hp
    rcases List.mem_map.1 ha with ⟨eid, _, hEq⟩
    rw [← hEq] at hp
    simp at hp
  rw [h1, h2, List.append_nil]

/-- C5: the replace-all assignment write leaves exactly one row per selected
employee for the project (and none when the selection is empty), does not
touch other projects' rows, and `setProjectAssignees(p, [])` followed by
`listProjectsWithAssignees` shows zero assignees for p regardless of the
prior rows. -/
theorem setProjectAssignees_correct (db : List ProjectAssignment) (projectId : String)
    (employeeIds : List String) :
    ((setProjectAssignees db projectId employeeIds).filter (fun a => a.project_id == projectId)
      = employeeIds.map fun employeeId =>
          { project_id := projectId, employee_id := employeeId : ProjectAssignment })
    ∧ ((setProjectAssignees db projectId employeeIds).filter
        (fun a => !(a.project_id == projectId))
      = db.filter (fun a => !(a.project_id == projectId)))
    ∧ (∀ ps (empQuery : List String → Option (List EmployeeInfo)) (pr : ProjectRow),
        pr ∈ ps → pr.id = projectId →
        buildProjectCard (storeAssignQuery (setProjectAssignees db projectId [])) empQuery pr
          = { project := pr, assignedEmployees := [] }
        ∧ ({ project := pr, assignedEmployees := [] } : ProjectCard)
            ∈ ps.map (buildProjectCard (storeAssignQuery (setProjectAssignees db projectId []))
                empQuery)
        ∧ fetchProjects (.ok ps) (storeAssignQuery (setProjectAssignees db projectId [])) empQuery
            = .ok (ps.map (buildProjectCard
                (storeAssignQuery (setProjectAssignees db projectId [])) empQuery))) := by
  refine ⟨setProjectAssignees_rows db projectId employeeIds,
    setProjectAssignees_frame db projectId employeeIds, ?_⟩
  intro ps empQuery pr hmem hid
  have hq : storeAssignQuery (setProjectAssignees db projectId []) pr.id = some [] := by
    unfold storeAssignQuery
    rw [hid]
    rw [show (setProjectAssignees db projectId []).filter
        (fun a => a.project_id == projectId) = [] from setProjectAssignees_rows db projectId []]
  have hcard := buildProjectCard_of_empty _ empQuery pr hq
  exact ⟨hcard, List.mem_map.2 ⟨pr, hmem, hcard⟩, rfl⟩

/-- Witness for C5: prior rows assign `e1`/`e2` to `p1`; after replacing with
the empty selection, `p1`'s card shows zero assignees. -/
theorem setProjectAssignees_correct_witness :
    (setProjectAssignees demoAssignments "p1" []).filter (fun a => a.project_id == "p1") = []
    ∧ buildProjectCard (storeAssignQuery (setProjectAssignees demoAssignments "p1" []))
        (fun _ => some []) demoProjectRow
      = { project := demoProjectRow, assignedEmployees := [] } := by
  have h := setProjectAssignees_correct demoAssignments "p1" []
  have h2 := h.2.2 [demoProjectRow] (fun _ => some []) demoProjectRow (by decide) rfl
  exact ⟨h.1, h2.1⟩

/-- C8: a project with zero `project_assignments` rows comes back from
`fetchProjects` with `assignedEmployees` equal to the empty list (the field
is total by type — never null or absent), and the overall read still
succeeds. -/
theorem fetchProjects_zero_assignments (ps : List ProjectRow) (db : List ProjectAssignment)
    (empQuery : List String → Option (List EmployeeInfo)) (pr : ProjectRow)
    (hmem : pr ∈ ps)
    (hzero : db.filter (fun a => a.project_id == pr.id) = []) :
    buildProjectCard (storeAssignQuery db) empQuery pr
      = { project := pr, assignedEmployees := [] }
    ∧ ({ project := pr, assignedEmployees := [] } : ProjectCard)
        ∈ ps.map (buildProjectCard (storeAssignQuery db) empQuery)
    ∧ fetchProjects (.ok ps) (storeAssignQuery db) empQuery
        = .ok (ps.map (buildProjectCard (storeAssignQuery db) empQuery)) := by
  have hq : storeAssignQuery db pr.id = some [] := by
    unfold storeAssignQuery
    rw [hzero]
  have hcard := buildProjectCard_of_empty _ empQuery pr hq
  exact ⟨hcard, List.mem_map.2 ⟨pr, hmem, hcard⟩, rfl⟩

/-- Witness for C8: a one-project store whose assignment table only mentions
another project. -/
theorem fetchProjects_zero_assignments_witness :
    buildProjectCard (storeAssignQuery [{ project_id := "p2", employee_id := "e2" }])
        (fun _ => some []) demoProjectRow
      = { project := demoProjectRow, assignedEmployees := [] }
    ∧ fetchProjects (.ok [demoProjectRow])
        (storeAssignQuery [{ project_id := "p2", employee_id := "e2" }]) (fun _ => some [])
      = .ok [{ project := demoProjectRow, assignedEmployees := [] }] := by
  have h := fetchProjects_zero_assignments [demoProjectRow]
    [{ project_id := "p2", employee_id := "e2" }] (fun _ => some []) demoProjectRow
    (by decide) (by decide)
  refine ⟨h.1, ?_⟩
  rw [h.2.2]
  rw [show ([demoProjectRow].map (buildProjectCard
      (storeAssignQuery [{ project_id := "p2", employee_id := "e2" }]) (fun _ => some [])))
    = [buildProjectCard (storeAssignQuery [{ project_id := "p2", employee_id := "e2" }])
        (fun _ => some []) demoProjectRow] from rfl]
  rw [h.1]

/-- C10: only a top-level projects-read error aborts `fetchProjects` and
reports the error; the read otherwise always succeeds, and an errored
per-project assignment sub-query (data null) or an errored batched employee
fetch is silently discarded, yielding `assignedEmployees = []` for that
project. -/
theorem fetchProjects_error_isolation (e : String) (ps : List ProjectRow)
    (assignQuery : String → Option (List ProjectAssignment))
    (empQuery : List String → Option (List EmployeeInfo)) (pr : ProjectRow)
    (assignments : List ProjectAssignment) :
    fetchProjects (.error e) assignQuery empQuery = .error e
    ∧ fetchProjects (.ok ps) assignQuery empQuery
        = .ok (ps.map (buildProjectCard assignQuery empQuery))
    ∧ (assignQuery pr.id = none →
        buildProjectCard assignQuery empQuery pr = { project := pr, assignedEmployees := [] })
    ∧ (assignQuery pr.id = some assignments → assignments.length > 0 →
        empQuery (assignments.map (·.employee_id)) = none →
        buildProjectCard assignQuery empQuery pr
          = { project := pr, assignedEmployees := [] }) := by
  refine ⟨rfl, rfl, buildProjectCard_of_error assignQuery empQuery pr, ?_⟩
  intro hq hlen hemp
  unfold buildProjectCard
  rw [hq]
  simp only [if_pos hlen, hemp, Option.getD_none]

/-- Witness for C10: the assignment sub-query errors for `p1`, the employee
fetch errors too; the project read still succeeds with an empty assignee
list, while a failed top-level read aborts. -/
theorem fetchProjects_error_isolation_witness :
    fetchProjects (.error "boom") (fun _ => none) (fun _ => none) = .error "boom"
    ∧ buildProjectCard (fun _ => none) (fun _ => none) demoProjectRow
        = { project := demoProjectRow, assignedEmployees := [] }
    ∧ buildProjectCard (fun _ => some [{ project_id := "p1", employee_id := "e1" }])
        (fun _ => none) demoProjectRow
        = { project := demoProjectRow, assignedEmployees := [] } := by
  have h1 := fetchProjects_error_isolation "boom" [demoProjectRow] (fun _ => none)
    (fun _ => none) demoProjectRow []
  have h2 := fetchProjects_error_isolation "boom" [demoProjectRow]
    (fun _ => some [{ project_id := "p1", employee_id := "e1" }]) (fun _ => none)
    demoProjectRow [{ project_id := "p1", employee_id := "e1" }]
  exact ⟨h1.1, h1.2.2.1 rfl, h2.2.2.2 rfl (by decide) rfl⟩

lemma insertRowDesc_perm (x : LeaderRow) (l : List LeaderRow) :
    List.Perm (insertRowDesc x l) (x :: l) := by
  induction l with
  | nil => exact List.Perm.refl _
  | cons y ys ih =>
    unfold insertRowDesc
    by_cases h : x.totalPoints < y.totalPoints
    · rw [if_pos h]
      exact ((ih.cons y).trans (List.Perm.swap x y ys))
    · rw [if_neg h]

lemma mem_insertRowDesc (a x : LeaderRow) (l : List LeaderRow) :
    a ∈ insertRowDesc x l ↔ a = x ∨ a ∈ l := by
  rw [(insertRowDesc_perm x l).mem_iff, List.mem_cons]

lemma insertRowDesc_pairwise (x : LeaderRow) (l : List LeaderRow)
    (h : l.Pairwise (fun a b => b.totalPoints ≤ a.totalPoints)) :
    (insertRowDesc x l).Pairwise (fun a b => b.totalPoints ≤ a.totalPoints) := by
  induction l with
  | nil => simp [insertRowDesc]
  | cons y ys ih =>
    rw [List.pairwise_cons] at h
    unfold insertRowDesc
    by_cases hc : x.totalPoints < y.totalPoints
    · rw [if_pos hc]
      rw [List.pairwise_cons]
      refine ⟨?_, ih h.2⟩
      intro z hz
      rcases (mem_insertRowDesc z x ys).1 hz with hzx | hzy
      · rw [hzx]; exact le_of_lt hc
      · exact h.1 z hzy
    · rw [if_neg hc]
      rw [List.pairwise_cons]
      refine ⟨?_, List.pairwise_cons.2 h⟩
      intro z hz
      rcases List.mem_cons.1 hz with hzy | hzys
      · rw [hzy]; exact le_of_not_lt hc
      · exact le_trans (h.1 z hzys) (le_of_not_lt hc)

lemma insertRowDesc_filter_ne (x : LeaderRow) (l : List LeaderRow) (p : LeaderRow → Bool)
    (hx : p x = false) : (insertRowDesc x l).filter p = l.filter p := by
  induction l with
  | nil => simp [insertRowDesc, hx]
  | cons y ys ih =>
    unfold insertRowDesc
    by_cases hc : x.totalPoints < y.totalPoints
    · rw [if_pos hc]
      rw [List.filter_cons, List.filter_cons, ih]
    · rw [if_neg hc]
      rw [List.filter_cons, hx]
      simp

lemma insertRowDesc_filter_key (x : LeaderRow) (l : List LeaderRow) :
    (insertRowDesc x l).filter (fun r => r.totalPoints == x.totalPoints)
      = x :: l.filter (fun r => r.totalPoints == x.totalPoints) := by
  induction l with
  | nil => simp [insertRowDesc]
  | cons y ys ih =>
    unfold insertRowDesc
    by_cases hc : x.totalPoints < y.totalPoints
    · rw [if_pos hc]
      have hy : (y.totalPoints == x.totalPoints) = false := by
        simp only [beq_eq_false_iff_ne, ne_eq]
        omega
      rw [List.filter_cons, hy]
      simp only [Bool.false_eq_true, if_false]
      rw [ih, List.filter_cons, hy]
      simp
    · rw [if_neg hc]
      rw [List.filter_cons]
      simp [beq_self_eq_true]

lemma sortByPointsDesc_perm (l : List LeaderRow) : List.Perm (sortByPointsDesc l) l := by
  induction l with
  | nil => exact List.Perm.refl _
  | cons x xs ih =>
    exact (insertRowDesc_perm x (sortByPointsDesc xs)).trans (ih.cons x)

lemma sortByPointsDesc_pairwise (l : List LeaderRow) :
    (sortByPointsDesc l).Pairwise (fun a b => b.totalPoints ≤ a.totalPoints) := by
  induction l with
  | nil => simp [sortByPointsDesc]
  | cons x xs ih => exact insertRowDesc_pairwise x (sortByPointsDesc xs) ih

lemma sortByPointsDesc_stable (l : List LeaderRow) (v : Int) :
    (sortByPointsDesc l).filter (fun r => r.totalPoints == v)
      = l.filter (fun r => r.totalPoints == v) := by
  induction l with
  | nil => rfl
  | cons x xs ih =>
    show (insertRowDesc x (sortByPointsDesc xs)).filter _ = _
    by_cases hv : x.totalPoints = v
    · subst hv
      rw [insertRowDesc_filter_key, ih, List.filter_cons, beq_self_eq_true]
      simp
    · have hx : (x.totalPoints == v) = false := by simp [hv]
      rw [insertRowDesc_filter_ne x _ _ hx, ih, List.filter_cons]
      simp [hx]

lemma foldl_add_eq_sum (l : List Int) : l.foldl (· + ·) 0 = l.sum := by
  have step : ∀ (l : List Int) (a : Int), l.foldl (· + ·) a = a + l.sum := by
    intro l
    induction l with
    | nil => intro a; simp
    | cons x xs ih =>
      intro a
      rw [List.foldl_cons, ih, List.sum_cons]
      ring
  rw [step l 0, zero_add]

/-- C4: every leaderboard row's `totalPoints` is the sum of the points of
that employee's reward rows, the output is a permutation of the per-employee
rows in non-increasing `totalPoints` order, and rows with equal totals keep
their input (insertion) order: filtering any total value yields exactly the
input rows with that total, in input order (stability). -/
theorem fetchEmployeePoints_correct (employees : List EmployeeIdName)
    (rewards : List RewardRow) (tasks : List TaskRow) :
    (∀ r ∈ fetchEmployeePoints employees rewards tasks,
      r.totalPoints = ((rewards.filter fun x => x.employee_id == r.id).map (·.points)).sum)
    ∧ (fetchEmployeePoints employees rewards tasks).Pairwise
        (fun a b => b.totalPoints ≤ a.totalPoints)
    ∧ (∀ v : Int, (fetchEmployeePoints employees rewards tasks).filter
        (fun r => r.totalPoints == v)
        = (employees.map (leaderRowFor rewards tasks)).filter (fun r => r.totalPoints == v))
    ∧ List.Perm (fetchEmployeePoints employees rewards tasks)
        (employees.map (leaderRowFor rewards tasks)) := by
  refine ⟨?_, sortByPointsDesc_pairwise _, fun v => sortByPointsDesc_stable _ v,
    sortByPointsDesc_perm _⟩
  intro r hr
  have hr2 : r ∈ employees.map (leaderRowFor rewards tasks) :=
    (sortByPointsDesc_perm _).subset hr
  rcases List.mem_map.1 hr2 with ⟨emp, _, hEq⟩
  rw [← hEq]
  show totalPointsFor rewards emp.id = _
  unfold totalPointsFor
  rw [foldl_add_eq_sum]
  rfl

/-- Witness for C4: two employees with reward rows 5+7 and 12; the totals tie
at 12 and the tie keeps insertion order, with totals equal to the row sums. -/
theorem fetchEmployeePoints_correct_witness :
    (fetchEmployeePoints [{ id := "e1", name := "A" }, { id := "e2", name := "B" }]
        [{ employee_id := "e1", points := 5 }, { employee_id := "e1", points := 7 },
         { employee_id := "e2", points := 12 }] []).map (·.id) = ["e1", "e2"]
    ∧ (∀ r ∈ fetchEmployeePoints [{ id := "e1", name := "A" }, { id := "e2", name := "B" }]
        [{ employee_id := "e1", points := 5 }, { employee_id := "e1", points := 7 },
         { employee_id := "e2", points := 12 }] [],
        r.totalPoints = 12) := by
  have h := fetchEmployeePoints_correct
    [{ id := "e1", name := "A" }, { id := "e2", name := "B" }]
    [{ employee_id := "e1", points := 5 }, { employee_id := "e1", points := 7 },
     { employee_id := "e2", points := 12 }] []
  refine ⟨by decide, ?_⟩
  intro r hr
  have := h.1 r hr
  rw [this]
  have hmem : r ∈ [{ id := "e1", name := "A" }, { id := "e2", name := "B" }].map
      (leaderRowFor [{ employee_id := "e1", points := 5 }, { employee_id := "e1", points := 7 },
        { employee_id := "e2", points := 12 }] []) := h.2.2.2.subset hr
  rcases List.mem_map.1 hmem with ⟨emp, hemp, hEq⟩
  rcases List.mem_cons.1 hemp with h1 | h2
  · rw [← hEq, h1]; decide
  · rcases List.mem_cons.1 h2 with h3 | h4
    · rw [← hEq, h3]; decide
    · exact absurd h4 (List.not_mem_nil emp)
